/-
  Verification of the FELsim beam-utility physics models.

  Shallow embedding of the computational core of the repository:
  the relativistic kinematics helpers, the inverse-Compton threshold
  fraction, the Bethe/Gruen range models, the stopping-power unit
  conversion state machine, and the alpha-magnet scaling laws, as
  implemented in beamUtility.py and backend/physicalConstants.py.

  Python/numpy floating point is modelled over the real numbers; where
  numpy produces NaN or infinity, an explicit value model (Option or a
  small inductive of numpy results) records that fact.  Numeric
  quadrature (scipy.integrate.quad) is modelled by the exact interval
  integral of the integrand, and independence from the integrator is
  expressed by quantifying over an abstract integration function.
-/
import Mathlib

namespace FELsim

noncomputable section

open Real

/-! ## Constants of dataclass PhysicsEqCst (beamUtility.py, lines 29-60) -/

/-- Elementary charge, field e of PhysicsEqCst. -/
def e : ℝ := 1.602176634e-19

/-- Electron mass, field me of PhysicsEqCst. -/
def me : ℝ := 9.10938356e-31

/-- Speed of light, field c of PhysicsEqCst. -/
def c : ℝ := 299792458

/-- Vacuum permittivity, field epsilon_0 of PhysicsEqCst. -/
def epsilon_0 : ℝ := 8.854187817e-12

/-- Avogadro number, field NA of PhysicsEqCst. -/
def NA : ℝ := 6.02214076e23

/-- Electron rest energy in MeV, field me_c2_MeV of PhysicsEqCst. -/
def me_c2_MeV : ℝ := 0.51099895

/-- Conversion MeV to Joule, property MeV_to_J of PhysicsEqCst. -/
def MeV_to_J : ℝ := e * 1e6

/-- Electron rest energy in Joule, property me_c2_J of PhysicsEqCst. -/
def me_c2_J : ℝ := me * c ^ 2

/-- Classical electron radius, property r_e of PhysicsEqCst. -/
def r_e : ℝ := e ^ 2 / (4 * π * epsilon_0 * me * c ^ 2)

/-- Thomson cross section, property sigma_T of PhysicsEqCst. -/
def sigma_T : ℝ := (8 * π / 3) * r_e ^ 2

/-- Path-length coefficient S_COEFF of PhysicsEqCst. -/
def S_COEFF : ℝ := 0.19165

/-- Excursion coefficient X_COEFF of PhysicsEqCst. -/
def X_COEFF : ℝ := 0.07505

lemma me_c2_MeV_pos : 0 < me_c2_MeV := by norm_num [me_c2_MeV]

lemma me_c2_J_pos : 0 < me_c2_J := by norm_num [me_c2_J, me, c]

lemma r_e_pos : 0 < r_e := by
  have hπ : 0 < π := pi_pos
  unfold r_e e epsilon_0 me c
  positivity

lemma sigma_T_pos : 0 < sigma_T := by
  have h := r_e_pos
  have hπ : 0 < π := pi_pos
  unfold sigma_T
  positivity

/-! ## Secondary-axis converters (PhysicsEqCst, beamUtility.py, lines 85-105)

beta_gamma_from_E_MeV clips non-finite input to 0 (identity over the
reals), clips negative energies to 0, and clips the radicand of the
beta computation to be non-negative before the square root.
E_MeV_from_beta_gamma clips negative beta-gamma to 0. -/

/-- Static method beta_gamma_from_E_MeV of PhysicsEqCst. -/
def beta_gamma_from_E_MeV (E_MeV : ℝ) : ℝ :=
  let E := max E_MeV 0
  let gamma := 1 + E / me_c2_MeV
  let val := max (1 - 1 / (gamma * gamma)) 0
  Real.sqrt val * gamma

/-- Static method E_MeV_from_beta_gamma of PhysicsEqCst. -/
def E_MeV_from_beta_gamma (bg : ℝ) : ℝ :=
  let bg2 := max bg 0
  (Real.sqrt (1 + bg2 * bg2) - 1) * me_c2_MeV

lemma beta_gamma_from_E_MeV_pos {E : ℝ} (hE : 0 < E) :
    0 < beta_gamma_from_E_MeV E := by
  have hm := me_c2_MeV_pos
  have hmax : max E 0 = E := max_eq_left hE.le
  simp only [beta_gamma_from_E_MeV, hmax]
  set g : ℝ := 1 + E / me_c2_MeV with hg
  have hg1 : 1 < g := by
    have : 0 < E / me_c2_MeV := div_pos hE hm
    simp [hg]; linarith
  have hg0 : 0 < g := lt_trans one_pos hg1
  have hgg : 1 < g * g := by nlinarith
  have hval : 0 < 1 - 1 / (g * g) := by
    have : 1 / (g * g) < 1 := by
      rw [div_lt_one (by linarith)]; exact hgg
    linarith
  have hmax2 : max (1 - 1 / (g * g)) 0 = 1 - 1 / (g * g) :=
    max_eq_left hval.le
  rw [hmax2]
  exact mul_pos (Real.sqrt_pos.mpr hval) hg0

/-- C1: for every kinetic energy E greater than 0, mapping E to beta-gamma
with beta_gamma_from_E_MeV and back with E_MeV_from_beta_gamma returns E
again within relative tolerance 1e-9 (over the reals the round trip is in
fact exact). -/
theorem roundtrip_energy_beta_gamma (E : ℝ) (hE : 0 < E) :
    |E_MeV_from_beta_gamma (beta_gamma_from_E_MeV E) - E| ≤ 1e-9 * E := by
  have hm := me_c2_MeV_pos
  have hexact : E_MeV_from_beta_gamma (beta_gamma_from_E_MeV E) = E := by
    have hmax : max E 0 = E := max_eq_left hE.le
    simp only [beta_gamma_from_E_MeV, E_MeV_from_beta_gamma, hmax]
    set g : ℝ := 1 + E / me_c2_MeV with hg
    have hg1 : 1 < g := by
      have : 0 < E / me_c2_MeV := div_pos hE hm
      simp [hg]; linarith
    have hg0 : 0 < g := lt_trans one_pos hg1
    have hgg : 1 < g * g := by nlinarith
    have hggpos : 0 < g * g := by nlinarith
    have hval : (0:ℝ) ≤ 1 - 1 / (g * g) := by
      have : 1 / (g * g) < 1 := by
        rw [div_lt_one hggpos]; exact hgg
      linarith
    have hmax2 : max (1 - 1 / (g * g)) 0 = 1 - 1 / (g * g) :=
      max_eq_left hval
    rw [hmax2]
    set bg : ℝ := Real.sqrt (1 - 1 / (g * g)) * g with hbg
    have hbgnn : 0 ≤ bg := mul_nonneg (Real.sqrt_nonneg _) hg0.le
    have hmax3 : max bg 0 = bg := max_eq_left hbgnn
    rw [hmax3]
    have hsq : bg * bg = (1 - 1 / (g * g)) * (g * g) := by
      rw [hbg]
      have h := Real.mul_self_sqrt hval
      calc Real.sqrt (1 - 1 / (g * g)) * g * (Real.sqrt (1 - 1 / (g * g)) * g)
          = Real.sqrt (1 - 1 / (g * g)) * Real.sqrt (1 - 1 / (g * g)) * (g * g) := by
            ring
        _ = (1 - 1 / (g * g)) * (g * g) := by rw [h]
    have hkey : 1 + bg * bg = g * g := by
      rw [hsq]
      field_simp
    rw [hkey, Real.sqrt_mul_self hg0.le]
    have : g - 1 = E / me_c2_MeV := by rw [hg]; ring
    rw [this, div_mul_cancel₀ _ (ne_of_gt hm)]
  rw [hexact]
  simp
  positivity

/-- Witness for C1 at the concrete energy 45 MeV. -/
theorem roundtrip_energy_beta_gamma_witness :
    |E_MeV_from_beta_gamma (beta_gamma_from_E_MeV 45) - 45| ≤ 1e-9 * 45 :=
  roundtrip_energy_beta_gamma 45 (by norm_num)

/-! ## Inverse Compton scattering (beamUtility.py, lines 114-123 and 384-393)

Egamma_max_J and Egamma_vs_theta_J are methods of PhysicsEqCst;
fraction_above_threshold is a method of BeamRadiation.  The scipy
quadrature call in fraction_above_threshold is abstracted by an
integration function taking the two integration bounds; the concrete
instance uses the exact interval integral of the integrand. -/

/-- Method Egamma_max_J of PhysicsEqCst. -/
def Egamma_max_J (gamma E_L_J : ℝ) : ℝ :=
  let xi := 4 * gamma * E_L_J / me_c2_J
  (4 * gamma ^ 2 * E_L_J) / (1 + xi)

/-- Method Egamma_vs_theta_J of PhysicsEqCst. -/
def Egamma_vs_theta_J (gamma E_L_J theta : ℝ) : ℝ :=
  let xi := 4 * gamma * E_L_J / me_c2_J
  (4 * gamma ^ 2 * E_L_J) / (1 + xi + gamma ^ 2 * theta ^ 2)

/-- Method thomson_dsigma_dOmega of PhysicsEqCst. -/
def thomson_dsigma_dOmega (theta : ℝ) : ℝ :=
  0.5 * r_e ^ 2 * (1 + Real.cos theta ^ 2)

/-- Method fraction_above_threshold of BeamRadiation, with the quadrature
routine abstracted as a function of the two integration bounds. -/
def fraction_above_threshold_gen (integrate : ℝ → ℝ → ℝ)
    (gamma E_L_J E_thresh_J : ℝ) : ℝ :=
  let num := 4 * gamma ^ 2 * E_L_J / E_thresh_J - 1 - 4 * gamma * E_L_J / me_c2_J
  if num ≤ 0 then 0
  else
    let theta_thresh := Real.sqrt num / gamma
    integrate 0 theta_thresh / sigma_T

/-- Method fraction_above_threshold of BeamRadiation, with scipy quad
modelled as the exact integral of the integrand over the interval. -/
def fraction_above_threshold (gamma E_L_J E_thresh_J : ℝ) : ℝ :=
  fraction_above_threshold_gen
    (fun a b => ∫ theta in a..b, thomson_dsigma_dOmega theta * Real.sin theta)
    gamma E_L_J E_thresh_J

/-- C2: whenever the threshold energy exceeds the Compton edge, the
radicand of the cutoff-angle formula is negative and
fraction_above_threshold returns exactly 0, for an arbitrary integration
routine, so the quadrature is never consulted. -/
theorem fraction_zero_above_edge (integrate : ℝ → ℝ → ℝ)
    (gamma E_L Eth : ℝ) (hγ : 0 < gamma) (hEL : 0 < E_L) (hEth : 0 < Eth)
    (hedge : Egamma_max_J gamma E_L < Eth) :
    4 * gamma ^ 2 * E_L / Eth - 1 - 4 * gamma * E_L / me_c2_J < 0 ∧
    fraction_above_threshold_gen integrate gamma E_L Eth = 0 ∧
    fraction_above_threshold gamma E_L Eth = 0 := by
  have hm := me_c2_J_pos
  have hxi : 0 < 4 * gamma * E_L / me_c2_J := by positivity
  have hden : 0 < 1 + 4 * gamma * E_L / me_c2_J := by linarith
  simp only [Egamma_max_J] at hedge
  rw [div_lt_iff hden] at hedge
  have hnum : 4 * gamma ^ 2 * E_L / Eth - 1 - 4 * gamma * E_L / me_c2_J < 0 := by
    have h2 : 4 * gamma ^ 2 * E_L / Eth < 1 + 4 * gamma * E_L / me_c2_J := by
      rw [div_lt_iff hEth]
      nlinarith
    linarith
  refine ⟨hnum, ?_, ?_⟩ <;>
    simp only [fraction_above_threshold, fraction_above_threshold_gen,
      if_pos hnum.le]

/-- Witness for C2 with a concrete state: unit Lorentz factor, laser
photon energy equal to the electron rest energy, threshold equal to the
rest energy (above the Compton edge of four fifths of it), and an
integration routine returning the nonsense constant 37. -/
theorem fraction_zero_above_edge_witness :
    fraction_above_threshold_gen (fun _ _ => 37) 1 me_c2_J me_c2_J = 0 ∧
    fraction_above_threshold 1 me_c2_J me_c2_J = 0 := by
  have hm := me_c2_J_pos
  have hedge : Egamma_max_J 1 me_c2_J < me_c2_J := by
    simp only [Egamma_max_J]
    rw [div_lt_iff (by positivity)]
    have h4 : 4 * 1 * me_c2_J / me_c2_J = 4 := by
      field_simp
    rw [h4]
    nlinarith
  exact (fraction_zero_above_edge (fun _ _ => 37) 1 me_c2_J me_c2_J
    one_pos hm hm hedge).2

/-- C10: for positive Lorentz factor and laser photon energy, the angular
photon energy Egamma_vs_theta_J never exceeds the Compton edge
Egamma_max_J; it equals the edge exactly at angle zero and is strictly
below it at every nonzero angle. -/
theorem Egamma_vs_theta_le_max (gamma E_L theta : ℝ)
    (hγ : 0 < gamma) (hEL : 0 < E_L) :
    Egamma_vs_theta_J gamma E_L theta ≤ Egamma_max_J gamma E_L ∧
    (theta ≠ 0 → Egamma_vs_theta_J gamma E_L theta < Egamma_max_J gamma E_L) ∧
    Egamma_vs_theta_J gamma E_L 0 = Egamma_max_J gamma E_L := by
  have hm := me_c2_J_pos
  have hxi : 0 < 4 * gamma * E_L / me_c2_J := by positivity
  have hden : 0 < 1 + 4 * gamma * E_L / me_c2_J := by linarith
  have hN : 0 < 4 * gamma ^ 2 * E_L := by positivity
  refine ⟨?_, ?_, ?_⟩
  · simp only [Egamma_vs_theta_J, Egamma_max_J]
    have hchunk : 0 ≤ gamma ^ 2 * theta ^ 2 := by positivity
    apply div_le_div_of_nonneg_left hN.le hden
    linarith
  · intro hθ
    simp only [Egamma_vs_theta_J, Egamma_max_J]
    have hchunk : 0 < gamma ^ 2 * theta ^ 2 := by positivity
    apply div_lt_div_of_pos_left hN hden
    linarith
  · simp only [Egamma_vs_theta_J, Egamma_max_J]
    norm_num

/-- Witness for C10 with Lorentz factor 1, laser energy 1 J and angle 1. -/
theorem Egamma_vs_theta_le_max_witness :
    Egamma_vs_theta_J 1 1 1 ≤ Egamma_max_J 1 1 ∧
    ((1:ℝ) ≠ 0 → Egamma_vs_theta_J 1 1 1 < Egamma_max_J 1 1) ∧
    Egamma_vs_theta_J 1 1 0 = Egamma_max_J 1 1 :=
  Egamma_vs_theta_le_max 1 1 1 one_pos one_pos

/-! ## Threshold fraction versus threshold energy (claim C8)

The weighted Thomson integrand has the elementary antiderivative
F t = 0.5 r_e^2 (-cos t - cos t ^ 3 / 3); the integral from 0 to u is
0.5 r_e^2 (4/3 - cos u - cos u ^ 3 / 3).  That quantity is non-negative
for every u and non-decreasing on the interval from 0 to pi, but it
decreases between pi and 2 pi, which breaks the claimed monotonicity of
fraction_above_threshold when the cutoff angle passes pi. -/

lemma thomson_weighted_integral (u : ℝ) :
    (∫ theta in (0:ℝ)..u, thomson_dsigma_dOmega theta * Real.sin theta) =
      0.5 * r_e ^ 2 * (4 / 3 - Real.cos u - Real.cos u ^ 3 / 3) := by
  have hderiv : ∀ θ ∈ Set.uIcc (0:ℝ) u,
      HasDerivAt (fun t => 0.5 * r_e ^ 2 * (-Real.cos t - Real.cos t ^ 3 / 3))
        (thomson_dsigma_dOmega θ * Real.sin θ) θ := by
    intro θ _
    have hcos : HasDerivAt Real.cos (-Real.sin θ) θ := Real.hasDerivAt_cos θ
    have hcos3 : HasDerivAt (fun t => Real.cos t ^ 3)
        (3 * Real.cos θ ^ 2 * (-Real.sin θ)) θ := by
      simpa using hcos.pow 3
    have h := ((hcos.neg).sub (hcos3.div_const 3)).const_mul (0.5 * r_e ^ 2)
    convert h using 1
    simp only [thomson_dsigma_dOmega]
    ring
  have hcont : Continuous fun θ : ℝ => thomson_dsigma_dOmega θ * Real.sin θ := by
    simp only [thomson_dsigma_dOmega]
    fun_prop
  rw [intervalIntegral.integral_eq_sub_of_hasDerivAt hderiv
      (hcont.intervalIntegrable 0 u)]
  simp only [Real.cos_zero]
  ring

lemma thomson_antideriv_nonneg (u : ℝ) :
    0 ≤ 4 / 3 - Real.cos u - Real.cos u ^ 3 / 3 := by
  have h1 := Real.cos_le_one u
  have h2 := Real.neg_one_le_cos u
  nlinarith [sq_nonneg (2 * Real.cos u + 1), sq_nonneg (Real.cos u - 1)]

lemma thomson_antideriv_mono {a b : ℝ} (ha : 0 ≤ a) (hb : b ≤ π) (hab : a ≤ b) :
    4 / 3 - Real.cos a - Real.cos a ^ 3 / 3 ≤
      4 / 3 - Real.cos b - Real.cos b ^ 3 / 3 := by
  have hc : Real.cos b ≤ Real.cos a :=
    Real.cos_le_cos_of_nonneg_of_le_pi ha hb hab
  have hd : 0 ≤ Real.cos a - Real.cos b := by linarith
  nlinarith [mul_nonneg hd (sq_nonneg (Real.cos a + Real.cos b)),
    mul_nonneg hd (sq_nonneg (Real.cos a)),
    mul_nonneg hd (sq_nonneg (Real.cos b))]

/-- C8 (amended): fraction_above_threshold is non-increasing in the
threshold energy for fixed positive Lorentz factor and laser energy,
provided the cutoff angle of the smaller threshold does not exceed pi,
that is, the radicand at the smaller threshold is at most
gamma ^ 2 * pi ^ 2.  (Beyond pi the weighted Thomson integrand changes
sign and monotonicity genuinely fails, see the counterexample.) -/
theorem fraction_above_threshold_antitone
    (gamma E_L Eth1 Eth2 : ℝ) (hγ : 0 < gamma) (hEL : 0 < E_L)
    (h1 : 0 < Eth1) (h12 : Eth1 ≤ Eth2)
    (hcut : 4 * gamma ^ 2 * E_L / Eth1 - 1 - 4 * gamma * E_L / me_c2_J ≤
      gamma ^ 2 * π ^ 2) :
    fraction_above_threshold gamma E_L Eth2 ≤
      fraction_above_threshold gamma E_L Eth1 := by
  have hm := me_c2_J_pos
  have h2 : 0 < Eth2 := lt_of_lt_of_le h1 h12
  set num1 : ℝ := 4 * gamma ^ 2 * E_L / Eth1 - 1 - 4 * gamma * E_L / me_c2_J
    with hnum1
  set num2 : ℝ := 4 * gamma ^ 2 * E_L / Eth2 - 1 - 4 * gamma * E_L / me_c2_J
    with hnum2
  have hnum21 : num2 ≤ num1 := by
    have : 4 * gamma ^ 2 * E_L / Eth2 ≤ 4 * gamma ^ 2 * E_L / Eth1 :=
      div_le_div_of_nonneg_left (by positivity) h1 h12
    simp only [hnum1, hnum2]
    linarith
  simp only [fraction_above_threshold, fraction_above_threshold_gen,
    ← hnum1, ← hnum2]
  by_cases hc2 : num2 ≤ 0
  · rw [if_pos hc2]
    by_cases hc1 : num1 ≤ 0
    · rw [if_pos hc1]
    · rw [if_neg hc1]
      apply div_nonneg _ sigma_T_pos.le
      rw [thomson_weighted_integral]
      have := thomson_antideriv_nonneg (Real.sqrt num1 / gamma)
      nlinarith [sq_nonneg r_e]
  · have hc1 : ¬ num1 ≤ 0 := fun h => hc2 (le_trans hnum21 h)
    rw [if_neg hc1, if_neg hc2]
    have hθ2 : 0 ≤ Real.sqrt num2 / gamma := by positivity
    have hs : Real.sqrt num2 ≤ Real.sqrt num1 := Real.sqrt_le_sqrt hnum21
    have hθ12 : Real.sqrt num2 / gamma ≤ Real.sqrt num1 / gamma :=
      (div_le_div_iff_of_pos_right hγ).mpr hs
    have h1π : Real.sqrt num1 ≤ gamma * π := by
      have h := Real.sqrt_le_sqrt hcut
      rwa [show gamma ^ 2 * π ^ 2 = (gamma * π) ^ 2 by ring,
        Real.sqrt_sq (by positivity)] at h
    have hθ1π : Real.sqrt num1 / gamma ≤ π := by
      rw [div_le_iff hγ]
      linarith
    rw [thomson_weighted_integral, thomson_weighted_integral]
    apply (div_le_div_iff_of_pos_right sigma_T_pos).mpr
    exact mul_le_mul_of_nonneg_left
      (thomson_antideriv_mono hθ2 hθ1π hθ12) (by positivity)

/-- Witness for the amended C8, with unit Lorentz factor, laser photon
energy equal to the electron rest energy, and thresholds equal to one and
two rest energies. -/
theorem fraction_above_threshold_antitone_witness :
    fraction_above_threshold 1 me_c2_J (2 * me_c2_J) ≤
      fraction_above_threshold 1 me_c2_J me_c2_J := by
  have hm := me_c2_J_pos
  refine fraction_above_threshold_antitone 1 me_c2_J me_c2_J (2 * me_c2_J)
    one_pos hm hm (by linarith) ?_
  have h4 : 4 * 1 ^ 2 * me_c2_J / me_c2_J = 4 := by field_simp
  have h4b : 4 * 1 * me_c2_J / me_c2_J = 4 := by field_simp
  rw [h4, h4b]
  nlinarith [Real.pi_pos, sq_nonneg π]

/-- Counterexample to C8 as stated: at unit Lorentz factor and laser
photon energy equal to the electron rest energy, the thresholds
Eth1 = 4 me_c2_J / (5 + 4 pi ^ 2) and Eth2 = 4 me_c2_J / (5 + pi ^ 2)
satisfy 0 < Eth1 and Eth1 ≤ Eth2, yet the fraction at Eth1 (cutoff angle
2 pi, integral 0) is strictly smaller than the fraction at Eth2 (cutoff
angle pi, fraction 1 / (2 pi)), so the function is not non-increasing in
the threshold. -/
theorem fraction_above_threshold_not_antitone :
    0 < 4 * me_c2_J / (5 + 4 * π ^ 2) ∧
    4 * me_c2_J / (5 + 4 * π ^ 2) ≤ 4 * me_c2_J / (5 + π ^ 2) ∧
    fraction_above_threshold 1 me_c2_J (4 * me_c2_J / (5 + 4 * π ^ 2)) <
      fraction_above_threshold 1 me_c2_J (4 * me_c2_J / (5 + π ^ 2)) := by
  have hm := me_c2_J_pos
  have hπ := Real.pi_pos
  have hπ2 : 0 < π ^ 2 := by positivity
  have hD1 : (0:ℝ) < 5 + 4 * π ^ 2 := by linarith
  have hD2 : (0:ℝ) < 5 + π ^ 2 := by linarith
  refine ⟨by positivity, div_le_div_of_nonneg_left (by linarith) hD2 (by linarith), ?_⟩
  have hnum1 : 4 * 1 ^ 2 * me_c2_J / (4 * me_c2_J / (5 + 4 * π ^ 2)) - 1 -
      4 * 1 * me_c2_J / me_c2_J = 4 * π ^ 2 := by
    field_simp
    ring
  have hnum2 : 4 * 1 ^ 2 * me_c2_J / (4 * me_c2_J / (5 + π ^ 2)) - 1 -
      4 * 1 * me_c2_J / me_c2_J = π ^ 2 := by
    field_simp
    ring
  simp only [fraction_above_threshold, fraction_above_threshold_gen,
    hnum1, hnum2]
  rw [if_neg (by push_neg; positivity), if_neg (by push_neg; positivity)]
  have hs1 : Real.sqrt (4 * π ^ 2) / 1 = 2 * π := by
    rw [show (4:ℝ) * π ^ 2 = (2 * π) ^ 2 by ring,
      Real.sqrt_sq (by positivity), div_one]
  have hs2 : Real.sqrt (π ^ 2) / 1 = π := by
    rw [Real.sqrt_sq hπ.le, div_one]
  rw [hs1, hs2, thomson_weighted_integral, thomson_weighted_integral,
    Real.cos_two_pi, Real.cos_pi]
  have hlhs : 0.5 * r_e ^ 2 * (4 / 3 - 1 - 1 ^ 3 / 3) = 0 := by ring
  have hrhs : 0.5 * r_e ^ 2 * (4 / 3 - (-1) - (-1) ^ 3 / 3) =
      0.5 * r_e ^ 2 * (8 / 3) := by ring
  rw [hlhs, hrhs, zero_div]
  have hre := r_e_pos
  exact div_pos (by nlinarith) sigma_T_pos

/-! ## Alpha magnet (beamUtility.py, lines 510-531 and 708-751)

s_alpha_from_bg_g and x_max_from_bg_g evaluate
np.sqrt(beta_gamma / g) times a coefficient.  The Python body contains no
raise statement: for g below 0 numpy produces NaN (square root of a
negative quotient) and for g equal to 0 it produces infinity, with a
runtime warning at most.  The small inductive NpVal records a numpy
result that is NaN, infinite, or an ordinary real. -/

/-- Possible values of the numpy expressions in the alpha-magnet scaling
laws: NaN, positive infinity, or a finite real. -/
inductive NpVal where
  | nan : NpVal
  | inf : NpVal
  | val : ℝ → NpVal

/-- The numpy expression np.sqrt(a / b): division by zero gives infinity
for a positive numerator and NaN otherwise (negative over zero gives
negative infinity whose square root is NaN; zero over zero gives NaN);
the square root of a negative quotient gives NaN. -/
def np_sqrt_div (a b : ℝ) : NpVal :=
  if b = 0 then (if 0 < a then .inf else .nan)
  else if a / b < 0 then .nan
  else .val (Real.sqrt (a / b))

/-- Scaling of a numpy value by a positive coefficient (here S_COEFF or
X_COEFF): finite values multiply, infinity stays infinity, NaN stays NaN. -/
def np_scale (k : ℝ) : NpVal → NpVal
  | .nan => .nan
  | .inf => .inf
  | .val x => .val (k * x)

/-- Method s_alpha_from_bg_g of AlphaMagnet. -/
def s_alpha_from_bg_g (beta_gamma g_T_per_m : ℝ) : NpVal :=
  np_scale S_COEFF (np_sqrt_div beta_gamma g_T_per_m)

/-- Method x_max_from_bg_g of AlphaMagnet. -/
def x_max_from_bg_g (beta_gamma g_T_per_m : ℝ) : NpVal :=
  np_scale X_COEFF (np_sqrt_div beta_gamma g_T_per_m)

/-- Method g_from_current of AlphaMagnet. -/
def g_from_current (grad_per_amp I_A : ℝ) : ℝ := grad_per_amp * I_A

/-- Static method dsalpha_dQp0 of AlphaMagnet: the closed-form derivative
of the path-length scaling law with respect to beta gamma. -/
def dsalpha_dQp0 (beta_gamma g_T_per_m : ℝ) : ℝ :=
  S_COEFF / 2 * (1 / Real.sqrt g_T_per_m) * beta_gamma ^ (-(0.5:ℝ))

/-- The quantity labelled ds alpha over d beta gamma computed inside
plot_alpha_compression_1343 (beamUtility.py lines 731, 746 and 765):
X_COEFF divided by the square roots of the gradient and of beta gamma. -/
def ds_dQ_1343 (beta_gamma g_T_per_m : ℝ) : ℝ :=
  X_COEFF / Real.sqrt g_T_per_m / Real.sqrt beta_gamma

lemma rpow_neg_half_eq {x : ℝ} (hx : 0 ≤ x) :
    x ^ (-(0.5:ℝ)) = (Real.sqrt x)⁻¹ := by
  rw [show -(0.5:ℝ) = -(1/2) by norm_num, Real.rpow_neg hx, ← Real.sqrt_eq_rpow]

/-- Counterexample to C3 as stated: at the first energy of the default
grid (0.05 MeV) and the first default current (10 A), the sensitivity
quantity used by plot_alpha_compression_1343 differs from the closed-form
path-length derivative dsalpha_dQp0, because the plot uses the excursion
coefficient X_COEFF where the derivative of the path length has
S_COEFF / 2. -/
theorem ds_dQ_1343_ne_dsalpha_dQp0 :
    ds_dQ_1343 (beta_gamma_from_E_MeV 0.05) (g_from_current 0.103754 10) ≠
      dsalpha_dQp0 (beta_gamma_from_E_MeV 0.05) (g_from_current 0.103754 10) := by
  have hbg : 0 < beta_gamma_from_E_MeV 0.05 :=
    beta_gamma_from_E_MeV_pos (by norm_num)
  have hg : (0:ℝ) < g_from_current 0.103754 10 := by norm_num [g_from_current]
  set b := beta_gamma_from_E_MeV 0.05
  set g := g_from_current 0.103754 10
  have hsb : 0 < Real.sqrt b := Real.sqrt_pos.mpr hbg
  have hsg : 0 < Real.sqrt g := Real.sqrt_pos.mpr hg
  have h1 : ds_dQ_1343 b g = X_COEFF * ((Real.sqrt g)⁻¹ * (Real.sqrt b)⁻¹) := by
    rw [ds_dQ_1343, div_div, div_eq_mul_inv, mul_inv]
  have h2 : dsalpha_dQp0 b g =
      (S_COEFF / 2) * ((Real.sqrt g)⁻¹ * (Real.sqrt b)⁻¹) := by
    rw [dsalpha_dQp0, rpow_neg_half_eq hbg.le, one_div]
    ring
  intro heq
  rw [h1, h2] at heq
  have hne : (Real.sqrt g)⁻¹ * (Real.sqrt b)⁻¹ ≠ 0 := by positivity
  have : X_COEFF = S_COEFF / 2 := mul_right_cancel₀ hne heq
  norm_num [X_COEFF, S_COEFF] at this

/-- C3 (amended): the sensitivity quantity computed inside
plot_alpha_compression_1343 equals the closed-form path-length derivative
dsalpha_dQp0 scaled by the constant factor 2 X_COEFF / S_COEFF (about
0.783); it is proportional to, but not equal to, that derivative. -/
theorem ds_dQ_1343_eq_scaled_dsalpha (beta_gamma g : ℝ) (hbg : 0 ≤ beta_gamma) :
    ds_dQ_1343 beta_gamma g =
      2 * X_COEFF / S_COEFF * dsalpha_dQp0 beta_gamma g := by
  have h1 : ds_dQ_1343 beta_gamma g =
      X_COEFF * ((Real.sqrt g)⁻¹ * (Real.sqrt beta_gamma)⁻¹) := by
    rw [ds_dQ_1343, div_div, div_eq_mul_inv, mul_inv]
  have h2 : dsalpha_dQp0 beta_gamma g =
      (S_COEFF / 2) * ((Real.sqrt g)⁻¹ * (Real.sqrt beta_gamma)⁻¹) := by
    rw [dsalpha_dQp0, rpow_neg_half_eq hbg, one_div]
    ring
  rw [h1, h2]
  have hX : (X_COEFF:ℝ) = 2 * X_COEFF / S_COEFF * (S_COEFF / 2) := by
    norm_num [X_COEFF, S_COEFF]
  linear_combination ((Real.sqrt g)⁻¹ * (Real.sqrt beta_gamma)⁻¹) * hX

/-- Witness for the amended C3 at beta gamma 1 and gradient 1. -/
theorem ds_dQ_1343_eq_scaled_dsalpha_witness :
    ds_dQ_1343 1 1 = 2 * X_COEFF / S_COEFF * dsalpha_dQp0 1 1 :=
  ds_dQ_1343_eq_scaled_dsalpha 1 1 (by norm_num)

/-- C7 (amended): for positive beta gamma and positive gradient both
scaling laws return finite non-negative values; the functions contain no
raise statement, and for non-positive gradient they do not raise a
DomainError, see the counterexample theorem for the NaN and infinity
results they produce instead. -/
theorem alpha_lengths_nonneg (beta_gamma g : ℝ)
    (hbg : 0 < beta_gamma) (hg : 0 < g) :
    s_alpha_from_bg_g beta_gamma g =
      NpVal.val (S_COEFF * Real.sqrt (beta_gamma / g)) ∧
    0 ≤ S_COEFF * Real.sqrt (beta_gamma / g) ∧
    x_max_from_bg_g beta_gamma g =
      NpVal.val (X_COEFF * Real.sqrt (beta_gamma / g)) ∧
    0 ≤ X_COEFF * Real.sqrt (beta_gamma / g) := by
  have hq : 0 ≤ beta_gamma / g := by positivity
  have hsq : 0 ≤ Real.sqrt (beta_gamma / g) := Real.sqrt_nonneg _
  refine ⟨?_, mul_nonneg (by norm_num [S_COEFF]) hsq,
    ?_, mul_nonneg (by norm_num [X_COEFF]) hsq⟩ <;>
    simp [s_alpha_from_bg_g, x_max_from_bg_g, np_sqrt_div, np_scale,
      hg.ne', not_lt.mpr hq]

/-- Witness for the amended C7 at beta gamma 1 and gradient 1. -/
theorem alpha_lengths_nonneg_witness :
    s_alpha_from_bg_g 1 1 = NpVal.val (S_COEFF * Real.sqrt (1 / 1)) ∧
    0 ≤ S_COEFF * Real.sqrt (1 / 1) ∧
    x_max_from_bg_g 1 1 = NpVal.val (X_COEFF * Real.sqrt (1 / 1)) ∧
    0 ≤ X_COEFF * Real.sqrt (1 / 1) :=
  alpha_lengths_nonneg 1 1 one_pos one_pos

/-- Counterexample to C7 as stated: at beta gamma 1 a negative gradient
yields NaN and a zero gradient yields infinity; no exception of any kind
is raised (the embedded functions have no error outcome at all). -/
theorem alpha_lengths_no_domain_error :
    s_alpha_from_bg_g 1 (-1) = NpVal.nan ∧
    x_max_from_bg_g 1 (-1) = NpVal.nan ∧
    s_alpha_from_bg_g 1 0 = NpVal.inf ∧
    x_max_from_bg_g 1 0 = NpVal.inf := by
  norm_num [s_alpha_from_bg_g, x_max_from_bg_g, np_sqrt_div, np_scale]

/-- C9: scaling beta gamma (hence the ratio beta gamma over g) by a
positive factor k multiplies both the path length and the maximal
excursion by the square root of k. -/
theorem alpha_lengths_sqrt_scaling (beta_gamma g k : ℝ)
    (hbg : 0 < beta_gamma) (hg : 0 < g) (hk : 0 < k) :
    s_alpha_from_bg_g (k * beta_gamma) g =
      np_scale (Real.sqrt k) (s_alpha_from_bg_g beta_gamma g) ∧
    x_max_from_bg_g (k * beta_gamma) g =
      np_scale (Real.sqrt k) (x_max_from_bg_g beta_gamma g) := by
  have hq : 0 ≤ beta_gamma / g := by positivity
  have hq2 : 0 ≤ k * beta_gamma / g := by positivity
  have hsplit : Real.sqrt (k * beta_gamma / g) =
      Real.sqrt k * Real.sqrt (beta_gamma / g) := by
    rw [mul_div_assoc, Real.sqrt_mul hk.le]
  constructor <;>
  · simp only [s_alpha_from_bg_g, x_max_from_bg_g, np_sqrt_div, np_scale,
      if_neg hg.ne', if_neg (not_lt.mpr hq), if_neg (not_lt.mpr hq2)]
    rw [hsplit]
    ring_nf

/-- Witness for C9 at beta gamma 1, gradient 1 and scale factor 4. -/
theorem alpha_lengths_sqrt_scaling_witness :
    s_alpha_from_bg_g (4 * 1) 1 =
      np_scale (Real.sqrt 4) (s_alpha_from_bg_g 1 1) ∧
    x_max_from_bg_g (4 * 1) 1 =
      np_scale (Real.sqrt 4) (x_max_from_bg_g 1 1) :=
  alpha_lengths_sqrt_scaling 1 1 4 one_pos one_pos (by norm_num)

/-! ## BeamPower materials table and unit conversion
(beamUtility.py, lines 164-196)

The class attribute BeamPower.materials together with the class flag
_sp_converted form the only shared mutable state; the class method
_ensure_stopping_power_SI, invoked by every BeamPower constructor,
rescales every stopping_power entry once and sets the flag.  Both are
modelled as an explicit state record over the rationals: every literal in
the table is an exact decimal. -/

/-- One entry of the BeamPower.materials dictionary. -/
structure MatProps where
  density : ℚ
  specific_heat : ℚ
  stopping_power : ℚ
  heat_capacity : ℚ
  atomic_number : ℚ
  ionization_potential : ℚ
  atomic_mass : ℚ
  deriving DecidableEq

/-- The Aluminum entry of BeamPower.materials. -/
def aluminum : MatProps := ⟨2700, 900, 2.7, 0.897, 13, 166, 26.98⟩

/-- The Copper entry of BeamPower.materials. -/
def copper : MatProps := ⟨8960, 385, 5.0, 0.385, 29, 322, 63.55⟩

/-- The Stainless Steel entry of BeamPower.materials. -/
def stainless_steel : MatProps := ⟨7850, 500, 3.5, 0.500, 26, 233, 55.85⟩

/-- The initial BeamPower.materials dictionary, as a list of entries in
source order. -/
def materials_table : List (String × MatProps) :=
  [("Aluminum", aluminum), ("Copper", copper), ("Stainless Steel", stainless_steel)]

/-- The conversion factor MeV_to_J of PhysicsEqCst as an exact rational. -/
def MeV_to_J_Q : ℚ := 1.602176634e-19 * 1e6

/-- The per-material update performed by _ensure_stopping_power_SI:
stopping_power is multiplied by (MeV_to_J * 1e6) / density. -/
def convert_stopping_power (p : MatProps) : MatProps :=
  { p with stopping_power := p.stopping_power * (MeV_to_J_Q * 1e6 / p.density) }

/-- The shared mutable state of class BeamPower: the materials table and
the class flag _sp_converted. -/
structure BeamPowerMaterials where
  materials : List (String × MatProps)
  sp_converted : Bool
  deriving DecidableEq

/-- Class method _ensure_stopping_power_SI of BeamPower as a state
transition: when the flag is clear, rescale every stopping_power and set
the flag; otherwise do nothing. -/
def ensure_stopping_power_SI (s : BeamPowerMaterials) : BeamPowerMaterials :=
  if s.sp_converted then s
  else ⟨s.materials.map fun np => (np.1, convert_stopping_power np.2), true⟩

/-- The state at process start: original table, flag clear. -/
def beamPowerMaterials_start : BeamPowerMaterials := ⟨materials_table, false⟩

lemma ensure_stopping_power_SI_flag (s : BeamPowerMaterials) :
    (ensure_stopping_power_SI s).sp_converted = true := by
  by_cases hc : s.sp_converted = true
  · simp [ensure_stopping_power_SI, hc]
  · have hc2 : s.sp_converted = false := by
      revert hc; cases s.sp_converted <;> simp
    simp [ensure_stopping_power_SI, hc2]

lemma ensure_stopping_power_SI_fixed (t : BeamPowerMaterials)
    (ht : t.sp_converted = true) : ensure_stopping_power_SI t = t := by
  simp [ensure_stopping_power_SI, ht]

/-- C4: the one-time stopping-power conversion is idempotent.  However
many further times _ensure_stopping_power_SI runs after the first
invocation (one per BeamPower construction), the state no longer changes;
and a first invocation from an unconverted state rescales every
coefficient exactly once. -/
theorem ensure_stopping_power_SI_idempotent (s : BeamPowerMaterials) (n : ℕ) :
    ensure_stopping_power_SI^[n] (ensure_stopping_power_SI s) =
      ensure_stopping_power_SI s ∧
    (s.sp_converted = false →
      (ensure_stopping_power_SI s).materials =
        s.materials.map fun np => (np.1, convert_stopping_power np.2)) := by
  constructor
  · induction n with
    | zero => rfl
    | succ m ih =>
        rw [Function.iterate_succ_apply,
          ensure_stopping_power_SI_fixed _ (ensure_stopping_power_SI_flag s), ih]
  · intro h
    simp [ensure_stopping_power_SI, h]

/-- Witness for C4: from the process-start state, the first invocation
rescales the table (here stated through the theorem, discharging the
unconverted-flag hypothesis on the concrete start state). -/
theorem ensure_stopping_power_SI_idempotent_witness :
    ensure_stopping_power_SI^[2] (ensure_stopping_power_SI beamPowerMaterials_start) =
      ensure_stopping_power_SI beamPowerMaterials_start ∧
    (ensure_stopping_power_SI beamPowerMaterials_start).materials =
      beamPowerMaterials_start.materials.map
        fun np => (np.1, convert_stopping_power np.2) :=
  ⟨(ensure_stopping_power_SI_idempotent beamPowerMaterials_start 2).1,
    (ensure_stopping_power_SI_idempotent beamPowerMaterials_start 2).2 rfl⟩

/-! ## Range models (beamUtility.py, lines 301-330)

model_Grunn computes 0.1 * E ** 1.5 / rho per energy.  For a negative
numpy float energy, E ** 1.5 is NaN (numpy invalid-power warning), which
the Option models as none; there is no clamping in the source.
model_Bethe clamps its logarithm argument below at 1e-12, its stopping
power below at 1e-12 before dividing, and its final range below at 0.
The embedding of model_Bethe uses the Lean convention x / 0 = 0 at the
isolated beta-squared zeros (kinetic energy 0, or gamma in {-1, 0});
numpy produces infinities there, but in both semantics the final clamped
depth at those points is the same, and only the depth is the subject of
claim C5. -/

/-- The penetration depth computed by one row of model_Grunn of
BeamPower, given the material density (the table value in kg per cubic
metre, divided by 1000 in the source) and the energy in MeV.  The none
result models the numpy NaN arising from a negative base under a
fractional power. -/
def grunn_depth (density E : ℝ) : Option ℝ :=
  if E < 0 then none
  else some (0.1 * E ^ (1.5:ℝ) / (density / 1000))

/-- The stopping power in MeV per mm computed inside model_Bethe of
BeamPower for one energy (the intermediate beta of the source is not used
by this expression). -/
def bethe_stopping_power_MeV_per_mm (p : MatProps) (E : ℝ) : ℝ :=
  let rho := (p.density : ℝ) / 1000
  let Z := (p.atomic_number : ℝ)
  let A := (p.atomic_mass : ℝ)
  let Ipot := (p.ionization_potential : ℝ) * e
  let n_e := (NA * rho / A) * Z * 1e6
  let E_J := E * MeV_to_J
  let gamma := 1 + E_J / me_c2_J
  let beta2 := 1 - 1 / gamma ^ 2
  let log_term := max ((2 * me_c2_J * beta2) / Ipot) 1e-12
  (4 * π * e ^ 3 * Z * n_e) / (me * c ^ 2 * beta2) * Real.log log_term
    / MeV_to_J / 1000

/-- The penetration depth in cm recorded by one row of model_Bethe of
BeamPower: the range in mm is the energy over the clamped stopping power,
and the recorded depth is the range over 10 clamped below at 0. -/
def bethe_depth_cm (p : MatProps) (E : ℝ) : ℝ :=
  max (E / max (bethe_stopping_power_MeV_per_mm p E) 1e-12 / 10) 0

/-- C5 (amended): the Bethe range is non-negative for every energy,
positive or not; the Gruen range is defined and non-negative for every
non-negative energy.  (For negative energies the Gruen model yields NaN
rather than a near-zero range, see the counterexample.) -/
theorem range_models_nonneg (p : MatProps) (density E : ℝ)
    (hd : 0 < density) :
    0 ≤ bethe_depth_cm p E ∧
    (0 ≤ E →
      grunn_depth density E = some (0.1 * E ^ (1.5:ℝ) / (density / 1000)) ∧
      0 ≤ 0.1 * E ^ (1.5:ℝ) / (density / 1000)) := by
  refine ⟨le_max_right _ _, fun hE => ⟨?_, ?_⟩⟩
  · rw [grunn_depth, if_neg (not_lt.mpr hE)]
  · have hpow : 0 ≤ E ^ (1.5:ℝ) := Real.rpow_nonneg hE _
    apply div_nonneg (by linarith) (by linarith)

/-- Witness for the amended C5 on Aluminum at 45 MeV. -/
theorem range_models_nonneg_witness :
    0 ≤ bethe_depth_cm aluminum 45 ∧
    grunn_depth 2700 45 = some (0.1 * (45:ℝ) ^ (1.5:ℝ) / (2700 / 1000)) ∧
    0 ≤ 0.1 * (45:ℝ) ^ (1.5:ℝ) / (2700 / 1000) :=
  ⟨(range_models_nonneg aluminum 2700 45 (by norm_num)).1,
    (range_models_nonneg aluminum 2700 45 (by norm_num)).2 (by norm_num)⟩

/-- Counterexample to C5 as stated: at the Aluminum density and energy
-1 MeV, model_Grunn produces NaN (np.float64 raised to the power 1.5 with
a negative base), not a degenerate zero or near-zero range. -/
theorem grunn_depth_nan_on_negative :
    grunn_depth 2700 (-1) = none := by
  rw [grunn_depth, if_pos (by norm_num)]

/-! ## Relativistic parameters
(backend/physicalConstants.py, lines 196-233)

relativistic_parameters is plain Python float arithmetic.  Float division
by zero raises ZeroDivisionError, and raising a negative float to the
power 0.5 falls back to complex exponentiation and returns a complex
number without raising; both behaviours are part of the model.  No
DomainError exists anywhere in the source. -/

/-- Result of the Python expression x ** 0.5 on a float: a real square
root for a non-negative base, a complex number (here the principal square
root, purely imaginary) for a negative base. -/
inductive PyNum where
  | real : ℝ → PyNum
  | cplx : ℝ → ℝ → PyNum

/-- Python x ** 0.5. -/
def py_pow_half (x : ℝ) : PyNum :=
  if 0 ≤ x then .real (Real.sqrt x) else .cplx 0 (Real.sqrt (-x))

/-- Exceptions the embedded Python code can raise. -/
inductive PyExn where
  | zeroDivisionError : PyExn

/-- Classmethod relativistic_parameters of PhysicalConstants: gamma is
1 + KE / E0, beta is (1 - 1 / gamma ** 2) ** 0.5.  Division raises
ZeroDivisionError exactly when the rest energy is zero, or when gamma is
zero (rest energy equal to the negated kinetic energy). -/
def relativistic_parameters (ke e0 : ℝ) : Except PyExn (ℝ × PyNum) :=
  if e0 = 0 then .error .zeroDivisionError
  else
    let gamma := 1 + ke / e0
    if gamma = 0 then .error .zeroDivisionError
    else .ok (gamma, py_pow_half (1 - 1 / gamma ^ 2))

/-- C6 (amended): relativistic_parameters returns gamma = 1 + KE / E0
whenever no division by zero occurs (in particular for every positive
rest energy and non-negative kinetic energy); it raises ZeroDivisionError
(never a DomainError) at zero rest energy; and at the documented example
(45 MeV, electron rest energy) it returns gamma about 89.0628 with
derived beta about 0.999937. -/
theorem relativistic_parameters_spec :
    (∀ ke e0 : ℝ, e0 ≠ 0 → 1 + ke / e0 ≠ 0 →
      relativistic_parameters ke e0 =
        .ok (1 + ke / e0, py_pow_half (1 - 1 / (1 + ke / e0) ^ 2))) ∧
    (∀ ke : ℝ, relativistic_parameters ke 0 = .error .zeroDivisionError) ∧
    (∃ gamma beta : ℝ,
      relativistic_parameters 45 0.51099895 = .ok (gamma, .real beta) ∧
      |gamma - 89.0628| < 1e-4 ∧ |beta - 0.999937| < 1e-5) := by
  have hok : ∀ ke e0 : ℝ, e0 ≠ 0 → 1 + ke / e0 ≠ 0 →
      relativistic_parameters ke e0 =
        .ok (1 + ke / e0, py_pow_half (1 - 1 / (1 + ke / e0) ^ 2)) := by
    intro ke e0 h0 hγ
    simp [relativistic_parameters, h0, hγ]
  refine ⟨hok, fun ke => by simp [relativistic_parameters], ?_⟩
  set γ : ℝ := 1 + 45 / 0.51099895 with hγdef
  have hγne : γ ≠ 0 := by rw [hγdef]; norm_num
  have hval : (0:ℝ) ≤ 1 - 1 / γ ^ 2 := by rw [hγdef]; norm_num
  refine ⟨γ, Real.sqrt (1 - 1 / γ ^ 2), ?_, ?_, ?_⟩
  · rw [hok 45 0.51099895 (by norm_num) (by rw [← hγdef]; exact hγne)]
    rw [← hγdef, py_pow_half, if_pos hval]
  · rw [hγdef]; rw [abs_lt]; constructor <;> norm_num
  · have hlb : (0.999927:ℝ) < Real.sqrt (1 - 1 / γ ^ 2) := by
      rw [show (0.999927:ℝ) = Real.sqrt (0.999927 ^ 2) by
        rw [Real.sqrt_sq (by norm_num)]]
      apply Real.sqrt_lt_sqrt (by positivity)
      rw [hγdef]; norm_num
    have hub : Real.sqrt (1 - 1 / γ ^ 2) < 0.999947 := by
      rw [show (0.999947:ℝ) = Real.sqrt (0.999947 ^ 2) by
        rw [Real.sqrt_sq (by norm_num)]]
      apply Real.sqrt_lt_sqrt hval
      rw [hγdef]; norm_num
    rw [abs_lt]; constructor <;> linarith

/-- Witness for the amended C6 at the documented example input. -/
theorem relativistic_parameters_spec_witness :
    relativistic_parameters 45 0.51099895 =
      .ok (1 + 45 / 0.51099895,
        py_pow_half (1 - 1 / (1 + 45 / 0.51099895) ^ 2)) :=
  relativistic_parameters_spec.1 45 0.51099895 (by norm_num) (by norm_num)

/-- Counterexample to C6 as stated: at rest energy -0.51099895 (which is
not positive) the function returns normally with a value instead of
raising, so it is false that it raises exactly when the rest energy is
non-positive. -/
theorem relativistic_parameters_no_raise_on_negative_rest :
    ((-0.51099895:ℝ) ≤ 0) ∧
    ∃ v, relativistic_parameters 45 (-0.51099895) = .ok v := by
  refine ⟨by norm_num, ⟨(1 + 45 / (-0.51099895),
    py_pow_half (1 - 1 / (1 + 45 / (-0.51099895)) ^ 2)), ?_⟩⟩
  have h0 : (-0.51099895:ℝ) ≠ 0 := by norm_num
  have hγ : 1 + 45 / (-0.51099895:ℝ) ≠ 0 := by norm_num
  simp [relativistic_parameters, h0, hγ]


end

end FELsim
